import Mathlib

/-!
Verification of `src/public/scripts/process_signatures.py`.

The script's `process` function decodes an image to RGBA, discards the
alpha channel, derives a per-pixel alpha mask from the maximum colour
channel via a clamped linear ramp, crops the mask to the padded bounding
box of its non-zero pixels, and composites the mask onto a white,
fully-transparent canvas.

The embedding below mirrors the source: `rgbMax` is the manual
max-of-three-channels loop, `maskVal` the ramp `(m - threshold) * gain`
with its two clamping branches, `getbbox` PIL's bounding box of non-zero
pixels (`(x0, y0, x1, y1)` with exclusive right/bottom edges), `padBBox`
the pad-and-clamp arithmetic (`Nat` subtraction realises
`max(0, x0 - pad)`), `crop` PIL's rectangle crop, and `processImage` the
whole pure pipeline.  `processEffects` models the file writes a run
performs, with the decode step as the only fallible stage before the
final encode.
-/

/-- One RGBA pixel, 8-bit channels represented as `Nat`. -/
structure RGBA where
  r : Nat
  g : Nat
  b : Nat
  a : Nat
deriving DecidableEq, Repr

/-- A 2D image: width, height and a pixel lookup indexed as `px x y`. -/
structure Img (α : Type) where
  w : Nat
  h : Nat
  px : Nat → Nat → α

/-- Two images are observably equal: same dimensions and same pixel at
every in-bounds coordinate. -/
def Img.EqOn {α : Type} (i1 i2 : Img α) : Prop :=
  i1.w = i2.w ∧ i1.h = i2.h ∧
    ∀ x y, x < i1.w → y < i1.h → i1.px x y = i2.px x y

/-- The maximum channel, mirroring the source's sequential comparisons
(`m = pr; if pg > m: m = pg; if pb > m: m = pb`).  The alpha channel of
the pixel is not consulted. -/
def rgbMax (p : RGBA) : Nat :=
  let m := p.r
  let m := if p.g > m then p.g else m
  if p.b > m then p.b else m

/-- The per-pixel ramp: `v = (m - threshold) * gain` over the integers;
`v <= 0 → 0`, `v >= 255 → 255`, otherwise `v` itself (`int(v)` in the
source is the identity on an integer `v`). -/
def maskVal (threshold gain : Int) (m : Nat) : Nat :=
  let v : Int := ((m : Int) - threshold) * gain
  if v ≤ 0 then 0
  else if v ≥ 255 then 255
  else v.toNat

/-- The alpha mask built pixel-by-pixel from the RGB channels. -/
def maskImg (threshold gain : Int) (src : Img RGBA) : Img Nat :=
  ⟨src.w, src.h, fun x y => maskVal threshold gain (rgbMax (src.px x y))⟩

/-- A column holds a non-zero mask value somewhere. -/
def colNonzero (m : Img Nat) (x : Nat) : Bool :=
  (List.range m.h).any fun y => m.px x y != 0

/-- A row holds a non-zero mask value somewhere. -/
def rowNonzero (m : Img Nat) (y : Nat) : Bool :=
  (List.range m.w).any fun x => m.px x y != 0

/-- PIL's `getbbox`: `some (x0, y0, x1, y1)` with `x1`, `y1` exclusive,
the minimal rectangle containing every non-zero pixel; `none` when the
image is entirely zero. -/
def getbbox (m : Img Nat) : Option (Nat × Nat × Nat × Nat) :=
  let xs := (List.range m.w).filter (colNonzero m)
  let ys := (List.range m.h).filter (rowNonzero m)
  match xs.min?, xs.max?, ys.min?, ys.max? with
  | some x0, some x1, some y0, some y1 => some (x0, y0, x1 + 1, y1 + 1)
  | _, _, _, _ => none

/-- Expand a bounding box by `pad` on each side and clamp to the image:
`x0 = max(0, x0 - pad)` (realised by truncated `Nat` subtraction),
`x1 = min(w, x1 + pad)`, and likewise vertically. -/
def padBBox (w h pad : Nat) (bb : Nat × Nat × Nat × Nat) :
    Nat × Nat × Nat × Nat :=
  (bb.1 - pad, bb.2.1 - pad, min w (bb.2.2.1 + pad), min h (bb.2.2.2 + pad))

/-- PIL's `crop` to rectangle `(x0, y0, x1, y1)`: the result has size
`(x1 - x0, y1 - y0)` and its pixel `(x, y)` is the source's
`(x0 + x, y0 + y)`. -/
def crop {α : Type} (img : Img α) (rect : Nat × Nat × Nat × Nat) : Img α :=
  ⟨rect.2.2.1 - rect.1, rect.2.2.2 - rect.2.1,
    fun x y => img.px (rect.1 + x) (rect.2.1 + y)⟩

/-- The mask after the conditional crop step: if `getbbox` finds a box it
is padded, clamped and used to crop the mask, otherwise the mask is kept
at full size. -/
def croppedMask (threshold gain : Int) (pad : Nat) (src : Img RGBA) :
    Img Nat :=
  let alpha := maskImg threshold gain src
  match getbbox alpha with
  | none => alpha
  | some bb => crop alpha (padBBox src.w src.h pad bb)

/-- The whole pure pipeline of `process`: build the mask, crop it, then
composite it as the alpha channel of a white canvas
(`Image.new('RGBA', alpha.size, (255, 255, 255, 0))` + `putalpha`). -/
def processImage (threshold gain : Int) (pad : Nat) (src : Img RGBA) :
    Img RGBA :=
  let alpha := croppedMask threshold gain pad src
  ⟨alpha.w, alpha.h, fun x y => ⟨255, 255, 255, alpha.px x y⟩⟩

/-- The list of images written to the destination path during one run of
`process`.  Decoding is the only fallible step before the final
`out.save`; when it fails (`none`) the run aborts before any write. -/
def processEffects (decoded : Option (Img RGBA)) (threshold gain : Int)
    (pad : Nat) : List (Img RGBA) :=
  match decoded with
  | none => []
  | some src => [processImage threshold gain pad src]

/-! ## Basic sanity checks -/

example : maskVal 6 18 0 = 0 := by decide
example : maskVal 6 18 20 = 252 := by decide
example : maskVal 6 18 21 = 255 := by decide
example : rgbMax ⟨3, 9, 5, 0⟩ = 9 := by decide

/-! ## Helper lemmas -/

lemma maskImg_px (threshold gain : Int) (src : Img RGBA) (x y : Nat) :
    (maskImg threshold gain src).px x y =
      maskVal threshold gain (rgbMax (src.px x y)) := rfl

lemma maskVal_mono (threshold gain : Int) (hg : 0 ≤ gain) {m1 m2 : Nat}
    (h : m1 ≤ m2) : maskVal threshold gain m1 ≤ maskVal threshold gain m2 := by
  have hv : ((m1 : Int) - threshold) * gain ≤ ((m2 : Int) - threshold) * gain :=
    mul_le_mul_of_nonneg_right (by omega) hg
  simp only [maskVal]
  split_ifs <;> omega

lemma maskVal_eq_zero (threshold gain : Int) (hg : 0 ≤ gain) {m : Nat}
    (hm : (m : Int) ≤ threshold) : maskVal threshold gain m = 0 := by
  have hv : ((m : Int) - threshold) * gain ≤ 0 :=
    mul_nonpos_iff.mpr (Or.inr ⟨by omega, hg⟩)
  simp only [maskVal]
  split_ifs <;> omega

lemma crop_w {α : Type} (img : Img α) (rect : Nat × Nat × Nat × Nat) :
    (crop img rect).w = rect.2.2.1 - rect.1 := rfl

lemma crop_h {α : Type} (img : Img α) (rect : Nat × Nat × Nat × Nat) :
    (crop img rect).h = rect.2.2.2 - rect.2.1 := rfl

lemma crop_px {α : Type} (img : Img α) (rect : Nat × Nat × Nat × Nat)
    (x y : Nat) :
    (crop img rect).px x y = img.px (rect.1 + x) (rect.2.1 + y) := rfl

lemma processImage_w (threshold gain : Int) (pad : Nat) (src : Img RGBA) :
    (processImage threshold gain pad src).w =
      (croppedMask threshold gain pad src).w := rfl

lemma processImage_h (threshold gain : Int) (pad : Nat) (src : Img RGBA) :
    (processImage threshold gain pad src).h =
      (croppedMask threshold gain pad src).h := rfl

lemma processImage_px (threshold gain : Int) (pad : Nat) (src : Img RGBA)
    (x y : Nat) :
    (processImage threshold gain pad src).px x y =
      ⟨255, 255, 255, (croppedMask threshold gain pad src).px x y⟩ := rfl

lemma croppedMask_of_none {threshold gain : Int} {pad : Nat} {src : Img RGBA}
    (h : getbbox (maskImg threshold gain src) = none) :
    croppedMask threshold gain pad src = maskImg threshold gain src := by
  simp [croppedMask, h]

lemma croppedMask_of_some {threshold gain : Int} {pad : Nat} {src : Img RGBA}
    {bb : Nat × Nat × Nat × Nat}
    (h : getbbox (maskImg threshold gain src) = some bb) :
    croppedMask threshold gain pad src =
      crop (maskImg threshold gain src) (padBBox src.w src.h pad bb) := by
  simp [croppedMask, h]

lemma colNonzero_iff {m : Img Nat} {x : Nat} :
    colNonzero m x = true ↔ ∃ y, y < m.h ∧ m.px x y ≠ 0 := by
  simp [colNonzero, List.any_eq_true, List.mem_range, bne_iff_ne]

lemma rowNonzero_iff {m : Img Nat} {y : Nat} :
    rowNonzero m y = true ↔ ∃ x, x < m.w ∧ m.px x y ≠ 0 := by
  simp [rowNonzero, List.any_eq_true, List.mem_range, bne_iff_ne]

lemma natList_min?_spec {xs : List Nat} {a : Nat} (h : xs.min? = some a) :
    a ∈ xs ∧ ∀ b ∈ xs, a ≤ b :=
  (List.min?_eq_some_iff (fun a => le_refl a) (fun a b => min_choice a b)
    (fun _ _ _ => le_min_iff)).mp h

lemma natList_max?_spec {xs : List Nat} {a : Nat} (h : xs.max? = some a) :
    a ∈ xs ∧ ∀ b ∈ xs, b ≤ a :=
  (List.max?_eq_some_iff (fun a => le_refl a) (fun a b => max_choice a b)
    (fun _ _ _ => max_le_iff)).mp h

lemma getbbox_some_elim {m : Img Nat} {bb : Nat × Nat × Nat × Nat}
    (h : getbbox m = some bb) :
    ∃ x1 y1,
      ((List.range m.w).filter (colNonzero m)).min? = some bb.1 ∧
      ((List.range m.h).filter (rowNonzero m)).min? = some bb.2.1 ∧
      ((List.range m.w).filter (colNonzero m)).max? = some x1 ∧
      ((List.range m.h).filter (rowNonzero m)).max? = some y1 ∧
      bb.2.2.1 = x1 + 1 ∧ bb.2.2.2 = y1 + 1 := by
  simp only [getbbox] at h
  rcases hx0 : ((List.range m.w).filter (colNonzero m)).min? with _ | x0 <;>
    rcases hx1 : ((List.range m.w).filter (colNonzero m)).max? with _ | x1 <;>
      rcases hy0 : ((List.range m.h).filter (rowNonzero m)).min? with _ | y0 <;>
        rcases hy1 : ((List.range m.h).filter (rowNonzero m)).max? with _ | y1 <;>
          rw [hx0, hx1, hy0, hy1] at h <;> simp at h
  subst h
  exact ⟨x1, y1, rfl, rfl, rfl, rfl, rfl, rfl⟩

lemma getbbox_bounds {m : Img Nat} {bb : Nat × Nat × Nat × Nat}
    (h : getbbox m = some bb) {x y : Nat} (hx : x < m.w) (hy : y < m.h)
    (hnz : m.px x y ≠ 0) :
    bb.1 ≤ x ∧ x < bb.2.2.1 ∧ bb.2.1 ≤ y ∧ y < bb.2.2.2 := by
  obtain ⟨x1, y1, hminx, hminy, hmaxx, hmaxy, he1, he2⟩ := getbbox_some_elim h
  have hxmem : x ∈ (List.range m.w).filter (colNonzero m) :=
    List.mem_filter.mpr ⟨List.mem_range.mpr hx, colNonzero_iff.mpr ⟨y, hy, hnz⟩⟩
  have hymem : y ∈ (List.range m.h).filter (rowNonzero m) :=
    List.mem_filter.mpr ⟨List.mem_range.mpr hy, rowNonzero_iff.mpr ⟨x, hx, hnz⟩⟩
  have h1 := (natList_min?_spec hminx).2 x hxmem
  have h2 := (natList_max?_spec hmaxx).2 x hxmem
  have h3 := (natList_min?_spec hminy).2 y hymem
  have h4 := (natList_max?_spec hmaxy).2 y hymem
  omega

lemma getbbox_le_dims {m : Img Nat} {bb : Nat × Nat × Nat × Nat}
    (h : getbbox m = some bb) : bb.2.2.1 ≤ m.w ∧ bb.2.2.2 ≤ m.h := by
  obtain ⟨x1, y1, _, _, hmaxx, hmaxy, he1, he2⟩ := getbbox_some_elim h
  have hx1 : x1 < m.w :=
    List.mem_range.mp (List.mem_filter.mp (natList_max?_spec hmaxx).1).1
  have hy1 : y1 < m.h :=
    List.mem_range.mp (List.mem_filter.mp (natList_max?_spec hmaxy).1).1
  omega

lemma getbbox_of_all_zero {m : Img Nat}
    (hz : ∀ x y, x < m.w → y < m.h → m.px x y = 0) : getbbox m = none := by
  have hxs : (List.range m.w).filter (colNonzero m) = [] := by
    rw [List.filter_eq_nil_iff]
    intro x hx
    rw [Bool.not_eq_true]
    rw [← Bool.not_eq_true, colNonzero_iff]
    rintro ⟨y, hy, hnz⟩
    exact hnz (hz x y (List.mem_range.mp hx) hy)
  simp [getbbox, hxs]

/-- The end-to-end scenario input from the spec: a 10×10 black image with
a single white pixel at `(5, 5)`, source alpha fully opaque. -/
def testSrc : Img RGBA :=
  ⟨10, 10, fun x y =>
    if x = 5 ∧ y = 5 then ⟨255, 255, 255, 255⟩ else ⟨0, 0, 0, 255⟩⟩

/-! ## C1: the per-pixel alpha is the clamped linear ramp -/

/-- C1: with non-negative integer `threshold` and `gain`, the mask alpha of
any pixel is the clamped linear ramp on `m = max(r,g,b)`: it is `0` when
`(m - threshold) * gain ≤ 0`, `255` when that product is `≥ 255`, and the
product itself otherwise; in particular it is exactly `0` whenever
`max(r,g,b) ≤ threshold`. -/
theorem mask_alpha_clamped_ramp (threshold gain : Int)
    (ht : 0 ≤ threshold) (hg : 0 ≤ gain) (src : Img RGBA) (x y : Nat) :
    (((rgbMax (src.px x y) : Int) - threshold) * gain ≤ 0 →
      (maskImg threshold gain src).px x y = 0) ∧
    (255 ≤ ((rgbMax (src.px x y) : Int) - threshold) * gain →
      (maskImg threshold gain src).px x y = 255) ∧
    (0 < ((rgbMax (src.px x y) : Int) - threshold) * gain →
      ((rgbMax (src.px x y) : Int) - threshold) * gain < 255 →
      (((maskImg threshold gain src).px x y : Int)) =
        ((rgbMax (src.px x y) : Int) - threshold) * gain) ∧
    ((rgbMax (src.px x y) : Int) ≤ threshold →
      (maskImg threshold gain src).px x y = 0) := by
  rw [maskImg_px]
  refine ⟨?_, ?_, ?_, ?_⟩
  · intro hv
    simp only [maskVal]
    split_ifs <;> omega
  · intro hv
    simp only [maskVal]
    split_ifs <;> omega
  · intro hv1 hv2
    simp only [maskVal]
    split_ifs <;> omega
  · intro hm
    have hv : ((rgbMax (src.px x y) : Int) - threshold) * gain ≤ 0 :=
      mul_nonpos_iff.mpr (Or.inr ⟨by omega, hg⟩)
    simp only [maskVal]
    split_ifs <;> omega

/-- Witness for C1 at a concrete input: an all-black 1×1 image with
`threshold = 6`, `gain = 18` gets alpha `0` (its `max(r,g,b) = 0 ≤ 6`). -/
theorem mask_alpha_clamped_ramp_witness :
    (0 : Int) ≤ 6 ∧ (0 : Int) ≤ 18 ∧
    ((rgbMax ((⟨1, 1, fun _ _ => ⟨0, 0, 0, 255⟩⟩ : Img RGBA).px 0 0) : Int) ≤ 6) ∧
    (maskImg 6 18 ⟨1, 1, fun _ _ => ⟨0, 0, 0, 255⟩⟩).px 0 0 = 0 :=
  ⟨by decide, by decide, by decide,
    (mask_alpha_clamped_ramp 6 18 (by decide) (by decide)
      ⟨1, 1, fun _ _ => ⟨0, 0, 0, 255⟩⟩ 0 0).2.2.2 (by decide)⟩

/-! ## C5: saturation above threshold + ceil(255/gain) -/

/-- C5: for integer `threshold ≥ 0` and `gain ≥ 1`, any pixel whose
`max(r,g,b)` is at least `threshold + ceil(255/gain)` gets alpha exactly
`255`. -/
theorem mask_alpha_saturates (threshold gain : Nat) (hg : 1 ≤ gain)
    (src : Img RGBA) (x y : Nat)
    (hm : threshold + (255 + gain - 1) / gain ≤ rgbMax (src.px x y)) :
    (maskImg (threshold : Int) (gain : Int) src).px x y = 255 := by
  rw [maskImg_px]
  have key : 255 ≤ gain * ((255 + gain - 1) / gain) := by
    have h1 := Nat.div_add_mod (255 + gain - 1) gain
    have h2 := Nat.mod_lt (255 + gain - 1) (show 0 < gain by omega)
    omega
  generalize (255 + gain - 1) / gain = c at key hm
  have h5 : (255 : Int) ≤ ((rgbMax (src.px x y) : Int) - threshold) * gain := by
    have h4 : (c : Int) ≤ (rgbMax (src.px x y) : Int) - threshold := by omega
    have h6 : (c : Int) * gain ≤ ((rgbMax (src.px x y) : Int) - threshold) * gain :=
      mul_le_mul_of_nonneg_right h4 (by positivity)
    have h7 : (255 : Int) ≤ (gain : Int) * c := by exact_mod_cast key
    nlinarith
  simp only [maskVal]
  split_ifs <;> omega

/-- Witness for C5: with `threshold = 6`, `gain = 18` (so
`ceil(255/18) = 15`) a pure white pixel has `max = 255 ≥ 21` and alpha
`255`. -/
theorem mask_alpha_saturates_witness :
    1 ≤ 18 ∧
    6 + (255 + 18 - 1) / 18 ≤
      rgbMax ((⟨1, 1, fun _ _ => ⟨255, 255, 255, 0⟩⟩ : Img RGBA).px 0 0) ∧
    (maskImg 6 18 ⟨1, 1, fun _ _ => ⟨255, 255, 255, 0⟩⟩).px 0 0 = 255 :=
  ⟨by decide, by decide,
    mask_alpha_saturates 6 18 (by decide)
      ⟨1, 1, fun _ _ => ⟨255, 255, 255, 0⟩⟩ 0 0 (by decide)⟩

/-! ## C6: monotonicity of the alpha ramp -/

/-- C6: for fixed non-negative `threshold` and `gain`, the alpha computed
for a pixel is monotonically non-decreasing in its `max(r,g,b)`: a pixel
whose maximum channel is no larger than another's gets an alpha no larger
than the other's. -/
theorem mask_alpha_monotone (threshold gain : Int)
    (ht : 0 ≤ threshold) (hg : 0 ≤ gain) (src : Img RGBA)
    (x1 y1 x2 y2 : Nat)
    (h : rgbMax (src.px x1 y1) ≤ rgbMax (src.px x2 y2)) :
    (maskImg threshold gain src).px x1 y1 ≤
      (maskImg threshold gain src).px x2 y2 := by
  rw [maskImg_px, maskImg_px]
  exact maskVal_mono threshold gain hg h

/-- Witness for C6: in a 2×1 image with a dim pixel left of a bright one,
the dim pixel's alpha is at most the bright one's. -/
theorem mask_alpha_monotone_witness :
    (0 : Int) ≤ 6 ∧ (0 : Int) ≤ 18 ∧
    rgbMax ((⟨2, 1, fun x _ => if x = 0 then ⟨10, 0, 0, 0⟩ else ⟨200, 0, 0, 0⟩⟩ :
        Img RGBA).px 0 0) ≤
      rgbMax ((⟨2, 1, fun x _ => if x = 0 then ⟨10, 0, 0, 0⟩ else ⟨200, 0, 0, 0⟩⟩ :
        Img RGBA).px 1 0) ∧
    (maskImg 6 18 ⟨2, 1, fun x _ => if x = 0 then ⟨10, 0, 0, 0⟩ else ⟨200, 0, 0, 0⟩⟩).px 0 0 ≤
      (maskImg 6 18 ⟨2, 1, fun x _ => if x = 0 then ⟨10, 0, 0, 0⟩ else ⟨200, 0, 0, 0⟩⟩).px 1 0 :=
  ⟨by decide, by decide, by decide,
    mask_alpha_monotone 6 18 (by decide) (by decide)
      ⟨2, 1, fun x _ => if x = 0 then ⟨10, 0, 0, 0⟩ else ⟨200, 0, 0, 0⟩⟩
      0 0 1 0 (by decide)⟩

/-! ## C2: end-to-end scenario -/

/-- C2: on a 10×10 black image with one white pixel at `(5, 5)`, running
the pipeline with `threshold = 6`, `gain = 18`, `pad = 2` finds the
bounding box `(5, 5, 6, 6)`, pads and clamps it to a 5×5 region, and
yields a 5×5 output that is opaque white at the pixel corresponding to
the original `(5, 5)` (crop coordinate `(2, 2)`) and has alpha `0`
everywhere else. -/
theorem end_to_end_scenario :
    getbbox (maskImg 6 18 testSrc) = some (5, 5, 6, 6) ∧
    (processImage 6 18 2 testSrc).w = 5 ∧
    (processImage 6 18 2 testSrc).h = 5 ∧
    (processImage 6 18 2 testSrc).px 2 2 = ⟨255, 255, 255, 255⟩ ∧
    ∀ x, x < 5 → ∀ y, y < 5 → ¬(x = 2 ∧ y = 2) →
      ((processImage 6 18 2 testSrc).px x y).a = 0 := by
  refine ⟨by decide, by decide, by decide, by decide, by decide⟩

/-- Instance of C2's bounded quantifier at a concrete corner pixel. -/
theorem end_to_end_scenario_witness :
    ((processImage 6 18 2 testSrc).px 0 0).a = 0 :=
  end_to_end_scenario.2.2.2.2 0 (by decide) 0 (by decide) (by decide)

/-! ## C3: the padded crop rectangle stays inside the image -/

/-- C3: whenever the mask has a non-empty bounding box, the padded and
clamped crop rectangle lies inside `[0, width] × [0, height]`, no matter
how large `pad` is. -/
theorem crop_rect_clamped (threshold gain : Int) (pad : Nat)
    (src : Img RGBA) (bb : Nat × Nat × Nat × Nat)
    (hbb : getbbox (maskImg threshold gain src) = some bb) :
    0 ≤ (padBBox src.w src.h pad bb).1 ∧
    0 ≤ (padBBox src.w src.h pad bb).2.1 ∧
    (padBBox src.w src.h pad bb).2.2.1 ≤ src.w ∧
    (padBBox src.w src.h pad bb).2.2.2 ≤ src.h := by
  refine ⟨Nat.zero_le _, Nat.zero_le _, ?_, ?_⟩ <;>
    simp only [padBBox] <;> exact min_le_left _ _

/-- Witness for C3: the scenario image with `pad = 24`, far larger than
the distance from the bounding box to any edge. -/
theorem crop_rect_clamped_witness :
    getbbox (maskImg 6 18 testSrc) = some (5, 5, 6, 6) ∧
    (0 ≤ (padBBox testSrc.w testSrc.h 24 (5, 5, 6, 6)).1 ∧
     0 ≤ (padBBox testSrc.w testSrc.h 24 (5, 5, 6, 6)).2.1 ∧
     (padBBox testSrc.w testSrc.h 24 (5, 5, 6, 6)).2.2.1 ≤ testSrc.w ∧
     (padBBox testSrc.w testSrc.h 24 (5, 5, 6, 6)).2.2.2 ≤ testSrc.h) :=
  ⟨by decide, crop_rect_clamped 6 18 24 testSrc (5, 5, 6, 6) (by decide)⟩

/-! ## C4: an entirely-below-threshold image is passed through uncropped
and fully transparent -/

/-- C4: if every pixel of the source has `max(r,g,b) ≤ threshold`, the
mask has no non-zero pixel (`getbbox` is `none`, so no crop happens) and
the output keeps the source's dimensions with alpha `0` everywhere. -/
theorem below_threshold_fully_transparent (threshold gain : Int)
    (ht : 0 ≤ threshold) (hg : 0 ≤ gain) (pad : Nat) (src : Img RGBA)
    (hlow : ∀ x y, x < src.w → y < src.h →
      (rgbMax (src.px x y) : Int) ≤ threshold) :
    getbbox (maskImg threshold gain src) = none ∧
    (processImage threshold gain pad src).w = src.w ∧
    (processImage threshold gain pad src).h = src.h ∧
    ∀ x y, x < src.w → y < src.h →
      ((processImage threshold gain pad src).px x y).a = 0 := by
  have hz : ∀ x y, x < (maskImg threshold gain src).w →
      y < (maskImg threshold gain src).h →
      (maskImg threshold gain src).px x y = 0 := by
    intro x y hx hy
    rw [maskImg_px]
    exact maskVal_eq_zero threshold gain hg (hlow x y hx hy)
  have hnone := getbbox_of_all_zero hz
  have hcm : croppedMask threshold gain pad src = maskImg threshold gain src :=
    croppedMask_of_none hnone
  refine ⟨hnone, ?_, ?_, ?_⟩
  · rw [processImage_w, hcm]; rfl
  · rw [processImage_h, hcm]; rfl
  · intro x y hx hy
    rw [processImage_px, hcm]
    exact hz x y hx hy

/-- Witness for C4: a 2×2 dark-gray image, all channels at most 6. -/
theorem below_threshold_fully_transparent_witness :
    (∀ x y, x < (⟨2, 2, fun _ _ => ⟨6, 3, 0, 255⟩⟩ : Img RGBA).w →
      y < (⟨2, 2, fun _ _ => ⟨6, 3, 0, 255⟩⟩ : Img RGBA).h →
      (rgbMax ((⟨2, 2, fun _ _ => ⟨6, 3, 0, 255⟩⟩ : Img RGBA).px x y) : Int) ≤ 6) ∧
    getbbox (maskImg 6 18 ⟨2, 2, fun _ _ => ⟨6, 3, 0, 255⟩⟩) = none ∧
    (processImage 6 18 24 ⟨2, 2, fun _ _ => ⟨6, 3, 0, 255⟩⟩).w = 2 ∧
    (processImage 6 18 24 ⟨2, 2, fun _ _ => ⟨6, 3, 0, 255⟩⟩).h = 2 ∧
    ∀ x y, x < 2 → y < 2 →
      ((processImage 6 18 24 ⟨2, 2, fun _ _ => ⟨6, 3, 0, 255⟩⟩).px x y).a = 0 :=
  ⟨fun x y _ _ => by
      change (rgbMax ⟨6, 3, 0, 255⟩ : Int) ≤ 6
      decide,
    below_threshold_fully_transparent 6 18 (by decide) (by decide) 24
      ⟨2, 2, fun _ _ => ⟨6, 3, 0, 255⟩⟩ (fun x y _ _ => by
        change (rgbMax ⟨6, 3, 0, 255⟩ : Int) ≤ 6
        decide)⟩

/-! ## C10: cropping never discards a non-zero mask pixel -/

/-- C10: every in-bounds pixel with non-zero mask alpha lies inside the
padded, clamped crop rectangle, and reappears in the cropped mask at the
shifted coordinate with its alpha unchanged. -/
theorem crop_preserves_content (threshold gain : Int) (pad : Nat)
    (src : Img RGBA) (bb : Nat × Nat × Nat × Nat)
    (hbb : getbbox (maskImg threshold gain src) = some bb)
    (x y : Nat) (hx : x < src.w) (hy : y < src.h)
    (hnz : (maskImg threshold gain src).px x y ≠ 0) :
    (padBBox src.w src.h pad bb).1 ≤ x ∧
    x < (padBBox src.w src.h pad bb).2.2.1 ∧
    (padBBox src.w src.h pad bb).2.1 ≤ y ∧
    y < (padBBox src.w src.h pad bb).2.2.2 ∧
    x - (padBBox src.w src.h pad bb).1 <
      (croppedMask threshold gain pad src).w ∧
    y - (padBBox src.w src.h pad bb).2.1 <
      (croppedMask threshold gain pad src).h ∧
    (croppedMask threshold gain pad src).px
        (x - (padBBox src.w src.h pad bb).1)
        (y - (padBBox src.w src.h pad bb).2.1) =
      (maskImg threshold gain src).px x y := by
  have hb := getbbox_bounds hbb hx hy hnz
  have hcm : croppedMask threshold gain pad src =
      crop (maskImg threshold gain src) (padBBox src.w src.h pad bb) :=
    croppedMask_of_some hbb
  obtain ⟨hb1, hb2, hb3, hb4⟩ := hb
  have hp1 : (padBBox src.w src.h pad bb).1 = bb.1 - pad := rfl
  have hp2 : (padBBox src.w src.h pad bb).2.1 = bb.2.1 - pad := rfl
  have hp3 : (padBBox src.w src.h pad bb).2.2.1 = min src.w (bb.2.2.1 + pad) := rfl
  have hp4 : (padBBox src.w src.h pad bb).2.2.2 = min src.h (bb.2.2.2 + pad) := rfl
  have c1 : (padBBox src.w src.h pad bb).1 ≤ x := by omega
  have c2 : x < (padBBox src.w src.h pad bb).2.2.1 := by omega
  have c3 : (padBBox src.w src.h pad bb).2.1 ≤ y := by omega
  have c4 : y < (padBBox src.w src.h pad bb).2.2.2 := by omega
  refine ⟨c1, c2, c3, c4, ?_, ?_, ?_⟩
  · rw [hcm, crop_w]; omega
  · rw [hcm, crop_h]; omega
  · rw [hcm, crop_px]
    have e1 : (padBBox src.w src.h pad bb).1 +
        (x - (padBBox src.w src.h pad bb).1) = x := by omega
    have e2 : (padBBox src.w src.h pad bb).2.1 +
        (y - (padBBox src.w src.h pad bb).2.1) = y := by omega
    rw [e1, e2]

/-- Witness for C10: the scenario image's white pixel at `(5, 5)` survives
the crop at shifted coordinate `(2, 2)` with alpha `255`. -/
theorem crop_preserves_content_witness :
    getbbox (maskImg 6 18 testSrc) = some (5, 5, 6, 6) ∧
    (maskImg 6 18 testSrc).px 5 5 ≠ 0 ∧
    ((padBBox testSrc.w testSrc.h 2 (5, 5, 6, 6)).1 ≤ 5 ∧
     5 < (padBBox testSrc.w testSrc.h 2 (5, 5, 6, 6)).2.2.1 ∧
     (padBBox testSrc.w testSrc.h 2 (5, 5, 6, 6)).2.1 ≤ 5 ∧
     5 < (padBBox testSrc.w testSrc.h 2 (5, 5, 6, 6)).2.2.2 ∧
     5 - (padBBox testSrc.w testSrc.h 2 (5, 5, 6, 6)).1 <
       (croppedMask 6 18 2 testSrc).w ∧
     5 - (padBBox testSrc.w testSrc.h 2 (5, 5, 6, 6)).2.1 <
       (croppedMask 6 18 2 testSrc).h ∧
     (croppedMask 6 18 2 testSrc).px
         (5 - (padBBox testSrc.w testSrc.h 2 (5, 5, 6, 6)).1)
         (5 - (padBBox testSrc.w testSrc.h 2 (5, 5, 6, 6)).2.1) =
       (maskImg 6 18 testSrc).px 5 5) :=
  ⟨by decide, by decide,
    crop_preserves_content 6 18 2 testSrc (5, 5, 6, 6) (by decide)
      5 5 (by decide) (by decide) (by decide)⟩

/-! ## Congruence machinery for determinism and alpha-independence -/

lemma any_congr_range {n : Nat} {p q : Nat → Bool}
    (h : ∀ i, i < n → p i = q i) :
    (List.range n).any p = (List.range n).any q := by
  have hiff : ((List.range n).any p = true) ↔ ((List.range n).any q = true) := by
    simp only [List.any_eq_true, List.mem_range]
    constructor
    · rintro ⟨i, hi, hp⟩; exact ⟨i, hi, (h i hi) ▸ hp⟩
    · rintro ⟨i, hi, hq⟩; exact ⟨i, hi, (h i hi).symm ▸ hq⟩
  cases hx : (List.range n).any p <;> cases hy : (List.range n).any q <;>
    simp_all

lemma getbbox_congr {m1 m2 : Img Nat} (h : m1.EqOn m2) :
    getbbox m1 = getbbox m2 := by
  obtain ⟨hw, hh, hpx⟩ := h
  have hcol : ∀ x, x < m1.w → colNonzero m1 x = colNonzero m2 x := by
    intro x hx
    unfold colNonzero
    rw [← hh]
    exact any_congr_range fun y hy => by rw [hpx x y hx hy]
  have hrow : ∀ y, y < m1.h → rowNonzero m1 y = rowNonzero m2 y := by
    intro y hy
    unfold rowNonzero
    rw [← hw]
    exact any_congr_range fun x hx => by rw [hpx x y hx hy]
  have hxs : (List.range m1.w).filter (colNonzero m1) =
      (List.range m2.w).filter (colNonzero m2) := by
    rw [← hw]
    exact List.filter_congr fun x hx => hcol x (List.mem_range.mp hx)
  have hys : (List.range m1.h).filter (rowNonzero m1) =
      (List.range m2.h).filter (rowNonzero m2) := by
    rw [← hh]
    exact List.filter_congr fun y hy => hrow y (List.mem_range.mp hy)
  simp only [getbbox]
  rw [hxs, hys]

lemma croppedMask_eqOn {t g : Int} {p : Nat} {s1 s2 : Img RGBA}
    (hw : s1.w = s2.w) (hh : s1.h = s2.h)
    (hmask : (maskImg t g s1).EqOn (maskImg t g s2)) :
    (croppedMask t g p s1).EqOn (croppedMask t g p s2) := by
  have hbb := getbbox_congr hmask
  rcases hg1 : getbbox (maskImg t g s1) with _ | bb
  · have hg2 : getbbox (maskImg t g s2) = none := by rw [← hbb]; exact hg1
    rw [croppedMask_of_none hg1, croppedMask_of_none hg2]
    exact hmask
  · have hg2 : getbbox (maskImg t g s2) = some bb := by rw [← hbb]; exact hg1
    rw [croppedMask_of_some hg1, croppedMask_of_some hg2]
    obtain ⟨_, _, hpx⟩ := hmask
    refine ⟨?_, ?_, ?_⟩
    · simp [crop_w, padBBox, hw]
    · simp [crop_h, padBBox, hh]
    · intro x y hx hy
      rw [crop_px, crop_px]
      rw [crop_w] at hx
      rw [crop_h] at hy
      have hrect : padBBox s2.w s2.h p bb = padBBox s1.w s1.h p bb := by
        rw [hw, hh]
      rw [hrect]
      apply hpx
      · show (padBBox s1.w s1.h p bb).1 + x < s1.w
        simp only [padBBox] at hx ⊢
        omega
      · show (padBBox s1.w s1.h p bb).2.1 + y < s1.h
        simp only [padBBox] at hy ⊢
        omega

/-! ## C7: the pipeline is deterministic in its observable input -/

/-- C7: `process` is deterministic — for a fixed choice of `threshold`,
`gain` and `pad`, two sources with the same dimensions and the same pixel
values produce pixel-identical outputs (same dimensions, same colour and
alpha everywhere in bounds). -/
theorem process_deterministic (threshold gain : Int) (pad : Nat)
    (src1 src2 : Img RGBA) (h : src1.EqOn src2) :
    (processImage threshold gain pad src1).EqOn
      (processImage threshold gain pad src2) := by
  obtain ⟨hw, hh, hpx⟩ := h
  have hmask : (maskImg threshold gain src1).EqOn (maskImg threshold gain src2) :=
    ⟨hw, hh, fun x y hx hy => by rw [maskImg_px, maskImg_px, hpx x y hx hy]⟩
  obtain ⟨cw, ch, cpx⟩ := croppedMask_eqOn hw hh hmask
  exact ⟨cw, ch, fun x y hx hy => by
    rw [processImage_px, processImage_px, cpx x y hx hy]⟩

/-- Witness for C7: a concrete 1×1 source compared with itself. -/
theorem process_deterministic_witness :
    (⟨1, 1, fun _ _ => ⟨9, 8, 7, 6⟩⟩ : Img RGBA).EqOn
      ⟨1, 1, fun _ _ => ⟨9, 8, 7, 6⟩⟩ ∧
    (processImage 6 18 24 ⟨1, 1, fun _ _ => ⟨9, 8, 7, 6⟩⟩).EqOn
      (processImage 6 18 24 ⟨1, 1, fun _ _ => ⟨9, 8, 7, 6⟩⟩) :=
  ⟨⟨rfl, rfl, fun _ _ _ _ => rfl⟩,
    process_deterministic 6 18 24 _ _ ⟨rfl, rfl, fun _ _ _ _ => rfl⟩⟩

/-! ## C8: the source alpha channel is irrelevant -/

lemma rgbMax_eq_of_channels {p q : RGBA} (hr : p.r = q.r) (hg : p.g = q.g)
    (hb : p.b = q.b) : rgbMax p = rgbMax q := by
  simp only [rgbMax, hr, hg, hb]

/-- C8: the output never depends on the source's alpha channel — two
sources agreeing on every pixel's red, green and blue channels (alpha
arbitrary) produce pixel-identical outputs. -/
theorem alpha_channel_irrelevant (threshold gain : Int) (pad : Nat)
    (src1 src2 : Img RGBA) (hw : src1.w = src2.w) (hh : src1.h = src2.h)
    (hrgb : ∀ x y, x < src1.w → y < src1.h →
      (src1.px x y).r = (src2.px x y).r ∧
      (src1.px x y).g = (src2.px x y).g ∧
      (src1.px x y).b = (src2.px x y).b) :
    (processImage threshold gain pad src1).EqOn
      (processImage threshold gain pad src2) := by
  have hmask : (maskImg threshold gain src1).EqOn (maskImg threshold gain src2) := by
    refine ⟨hw, hh, fun x y hx hy => ?_⟩
    obtain ⟨hr, hg, hb⟩ := hrgb x y hx hy
    rw [maskImg_px, maskImg_px, rgbMax_eq_of_channels hr hg hb]
  obtain ⟨cw, ch, cpx⟩ := croppedMask_eqOn hw hh hmask
  exact ⟨cw, ch, fun x y hx hy => by
    rw [processImage_px, processImage_px, cpx x y hx hy]⟩

/-- Witness for C8: two 1×1 sources with equal RGB but alpha `0` versus
alpha `255` yield pixel-identical outputs. -/
theorem alpha_channel_irrelevant_witness :
    (⟨1, 1, fun _ _ => ⟨9, 8, 7, 0⟩⟩ : Img RGBA).w =
      (⟨1, 1, fun _ _ => ⟨9, 8, 7, 255⟩⟩ : Img RGBA).w ∧
    (∀ x y, x < 1 → y < 1 →
      ((⟨1, 1, fun _ _ => ⟨9, 8, 7, 0⟩⟩ : Img RGBA).px x y).r =
        ((⟨1, 1, fun _ _ => ⟨9, 8, 7, 255⟩⟩ : Img RGBA).px x y).r) ∧
    (processImage 6 18 24 ⟨1, 1, fun _ _ => ⟨9, 8, 7, 0⟩⟩).EqOn
      (processImage 6 18 24 ⟨1, 1, fun _ _ => ⟨9, 8, 7, 255⟩⟩) :=
  ⟨rfl, fun _ _ _ _ => rfl,
    alpha_channel_irrelevant 6 18 24
      ⟨1, 1, fun _ _ => ⟨9, 8, 7, 0⟩⟩ ⟨1, 1, fun _ _ => ⟨9, 8, 7, 255⟩⟩
      rfl rfl (fun _ _ _ _ => ⟨rfl, rfl, rfl⟩)⟩

/-! ## C9: no output is written when a step before encoding fails -/

/-- C9: the destination file is written only after all processing has
completed — in any run whose decode step fails, the list of files written
is empty, so a failed run never leaves a partial output. -/
theorem no_write_on_failure (threshold gain : Int) (pad : Nat)
    (decoded : Option (Img RGBA)) (hfail : decoded = none) :
    processEffects decoded threshold gain pad = [] := by
  rw [hfail]
  rfl

/-- Witness for C9: a run whose decode yields nothing writes nothing. -/
theorem no_write_on_failure_witness :
    (none : Option (Img RGBA)) = none ∧
    processEffects none 6 18 24 = [] :=
  ⟨rfl, no_write_on_failure 6 18 24 none rfl⟩
